import Mathlib

/-!
Shallow embedding of the mender-artifact parser (github.com/olepor/mender-artifact-refac).

The embedding follows the most complete variant of the source (the `parser`
package variant that exposes `Parse(io.Reader)` methods and is driven by
`Parser.Parse`): the `Version`, `Manifest`, `ManifestSig`, `ManifestAugment`,
`HeaderInfo`, `TypeInfo`, `MetaData`, `Scripts`, `HeaderTar`, `HeaderAugment`
section parsers and the outer grammar walker `Parser.Parse` / `Parser.Next`.

Modelling conventions:
* Go byte slices are `List Nat` (each element a byte value); all text in the
  format is ASCII, so the byte view of a string is the list of its char codes.
* A Go function that can return an `error` is modelled with `GoResult`;
  the distinguished `io.EOF` sentinel is `GoError.eof`, every other error is
  `GoError.msg` carrying its message.  A Go runtime panic (e.g. an index out
  of range) aborts the program instead of being returned; it is modelled by
  the separate `GoResult.panicked` outcome.
* A tar archive is modelled as the list of its entries (name + content);
  `tar.Reader.Next` on an exhausted list yields `GoError.eof`, exactly the
  io.EOF the library returns.  The gzip layer around the nested header/data
  archives is abstracted away: the content of a `*.tar.gz` outer entry is
  carried as the already-decompressed entry list (`OContent.targz`), since
  every claim is about the structure after decompression.
-/

set_option maxRecDepth 10000
set_option linter.unusedVariables false

namespace Mender

/-- Errors returned by Go functions.  `eof` is the distinguished `io.EOF`
sentinel value; `msg` is any other error, identified by its message. -/
inductive GoError where
  | eof : GoError
  | msg : String → GoError
deriving DecidableEq, Repr

/-- How Go renders an error with `%v` (`io.EOF.Error()` is `"EOF"`). -/
def GoError.str : GoError → String
  | .eof => "EOF"
  | .msg s => s

/-- Outcome of a Go call: a normal return, an error return, or a runtime
panic (which unwinds the whole program rather than being returned). -/
inductive GoResult (α : Type) where
  | ok : α → GoResult α
  | error : GoError → GoResult α
  | panicked : String → GoResult α
deriving DecidableEq, Repr

/-- The byte view of the ASCII text used throughout the artifact format. -/
def asciiBytes (s : String) : List Nat := s.data.map Char.toNat

/-- Bytes back to text (inverse of `asciiBytes` on ASCII input). -/
def bytesToStr (b : List Nat) : String := String.mk (b.map Char.ofNat)

/-- Split a character list at every occurrence of `c` (model of the
splitting underlying `strings.Split` / `filepath` component handling). -/
def splitOnChar (c : Char) : List Char → List (List Char)
  | [] => [[]]
  | x :: xs =>
    if x = c then [] :: splitOnChar c xs
    else
      match splitOnChar c xs with
      | r :: rs => (x :: r) :: rs
      | [] => [[x]]

/-- `strings.Split(s, sep)` for a single-character separator. -/
def goSplit (s : String) (c : Char) : List String :=
  (splitOnChar c s.data).map String.mk

/-- Strip one trailing carriage return, as bufio.ScanLines does. -/
def dropCR (s : String) : String :=
  match s.data.getLast? with
  | some c => if c = '\r' then String.mk s.data.dropLast else s
  | none => s

/-- The lines produced by `bufio.Scanner` with the default line splitter:
tokens are separated by newlines, a final newline does not produce an empty
trailing token, and a final token without a newline is still produced. -/
def goLines (s : String) : List String :=
  if s = "" then []
  else
    let parts := goSplit s '\n'
    let parts := if parts.getLast? = some "" then parts.dropLast else parts
    parts.map dropCR

/-- `filepath.Dir` on the clean, relative, slash-separated names used in the
archives: everything before the final component, `"."` when there is none. -/
def goDir (s : String) : String :=
  let comps := splitOnChar '/' s.data
  if comps.length ≤ 1 then "."
  else String.intercalate "/" (comps.dropLast.map String.mk)

/-- `filepath.Base` on the same class of names: the final component. -/
def goBase (s : String) : String :=
  String.mk ((splitOnChar '/' s.data).getLastD [])

/-- `filepath.Join` of two nonempty clean components. -/
def joinPath (dir fn : String) : String := dir ++ "/" ++ fn

/-! ### SHA-256 (crypto/sha256), over byte lists -/

/-- Truncation to a 32-bit word. -/
def w32 (x : Nat) : Nat := x % 4294967296

/-- 32-bit right rotation. -/
def rotr32 (n x : Nat) : Nat := w32 ((x >>> n) ||| (x <<< (32 - n)))

def shaCh (x y z : Nat) : Nat := (x &&& y) ^^^ ((x ^^^ 4294967295) &&& z)

def shaMaj (x y z : Nat) : Nat := (x &&& y) ^^^ (x &&& z) ^^^ (y &&& z)

def bigSigma0 (x : Nat) : Nat := rotr32 2 x ^^^ rotr32 13 x ^^^ rotr32 22 x

def bigSigma1 (x : Nat) : Nat := rotr32 6 x ^^^ rotr32 11 x ^^^ rotr32 25 x

def smallSigma0 (x : Nat) : Nat := rotr32 7 x ^^^ rotr32 18 x ^^^ (x >>> 3)

def smallSigma1 (x : Nat) : Nat := rotr32 17 x ^^^ rotr32 19 x ^^^ (x >>> 10)

/-- The 64 SHA-256 round constants (decimal). -/
def shaK : List Nat :=
  [1116352408, 1899447441, 3049323471, 3921009573, 961987163, 1508970993,
   2453635748, 2870763221, 3624381080, 310598401, 607225278, 1426881987,
   1925078388, 2162078206, 2614888103, 3248222580, 3835390401, 4022224774,
   264347078, 604807628, 770255983, 1249150122, 1555081692, 1996064986,
   2554220882, 2821834349, 2952996808, 3210313671, 3336571891, 3584528711,
   113926993, 338241895, 666307205, 773529912, 1294757372, 1396182291,
   1695183700, 1986661051, 2177026350, 2456956037, 2730485921, 2820302411,
   3259730800, 3345764771, 3516065817, 3600352804, 4094571909, 275423344,
   430227734, 506948616, 659060556, 883997877, 958139571, 1322822218,
   1537002063, 1747873779, 1955562222, 2024104815, 2227730452, 2361852424,
   2428436474, 2756734187, 3204031479, 3329325298]

/-- The SHA-256 initial hash state (decimal). -/
def shaH0 : List Nat :=
  [1779033703, 3144134277, 1013904242, 2773480762,
   1359893119, 2600822924, 528734635, 1541459225]

/-- The 8-byte big-endian encoding of a length-in-bits. -/
def bigEndian64 (n : Nat) : List Nat :=
  [(n >>> 56) &&& 255, (n >>> 48) &&& 255, (n >>> 40) &&& 255,
   (n >>> 32) &&& 255, (n >>> 24) &&& 255, (n >>> 16) &&& 255,
   (n >>> 8) &&& 255, n &&& 255]

/-- SHA-256 padding: a `0x80` byte, zeros to 56 mod 64, then the bit length. -/
def padMsg (msg : List Nat) : List Nat :=
  let l := msg.length
  msg ++ 0x80 :: List.replicate ((55 + 64 - l % 64) % 64) 0 ++ bigEndian64 (8 * l)

/-- Big-endian 32-bit words from a byte list. -/
def toWords : List Nat → List Nat
  | a :: b :: c :: d :: rest => (((a * 256 + b) * 256 + c) * 256 + d) :: toWords rest
  | _ => []

/-- One extension step of the SHA-256 message schedule. -/
def schedStep (w : List Nat) : List Nat :=
  let n := w.length
  w ++ [w32 (smallSigma1 (w.getD (n - 2) 0) + w.getD (n - 7) 0 +
             smallSigma0 (w.getD (n - 15) 0) + w.getD (n - 16) 0)]

/-- The 64-word message schedule of one block. -/
def schedule (w : List Nat) : List Nat :=
  (List.range 48).foldl (fun acc _ => schedStep acc) w

/-- One SHA-256 round on the 8-word working state. -/
def compressWord (st : List Nat) (kw : Nat × Nat) : List Nat :=
  match st with
  | [a, b, c, d, e, f, g, h] =>
    let t1 := w32 (h + bigSigma1 e + shaCh e f g + kw.1 + kw.2)
    let t2 := w32 (bigSigma0 a + shaMaj a b c)
    [w32 (t1 + t2), a, b, c, w32 (d + t1), e, f, g]
  | _ => st

/-- SHA-256 compression of one 64-byte block into the hash state. -/
def compressBlock (h : List Nat) (block : List Nat) : List Nat :=
  let st := ((shaK.zip (schedule (toWords block))).foldl compressWord h)
  (h.zip st).map (fun p => w32 (p.1 + p.2))

/-- Split into 64-byte blocks. -/
def chunk64 (l : List Nat) : List (List Nat) :=
  if h : l = [] then []
  else l.take 64 :: chunk64 (l.drop 64)
termination_by l.length
decreasing_by
  simp only [List.length_drop]
  exact Nat.sub_lt (List.length_pos.mpr h) (by decide)

/-- Big-endian bytes of a 32-bit word. -/
def wordBytes (w : Nat) : List Nat :=
  [(w >>> 24) &&& 255, (w >>> 16) &&& 255, (w >>> 8) &&& 255, w &&& 255]

/-- The SHA-256 digest (32 bytes) of a byte list. -/
def sha256Bytes (msg : List Nat) : List Nat :=
  (((chunk64 (padMsg msg)).foldl compressBlock shaH0).map wordBytes).flatten

/-! ### encoding/json, on the subset of JSON the artifact format uses
(objects, arrays, strings with simple escapes, integers, booleans, null). -/

/-- JSON values. -/
inductive Json where
  | jnull : Json
  | jbool : Bool → Json
  | jnum : Int → Json
  | jstr : String → Json
  | jarr : List Json → Json
  | jobj : List (String × Json) → Json
deriving Repr

/-- Skip JSON whitespace. -/
def skipWs : List Char → List Char
  | c :: cs => if c = ' ' ∨ c = '\n' ∨ c = '\t' ∨ c = '\r' then skipWs cs else c :: cs
  | [] => []

/-- The character denoted by a string escape. -/
def escChar (e : Char) : Option Char :=
  if e = '"' then some '"'
  else if e = '\\' then some '\\'
  else if e = '/' then some '/'
  else if e = 'n' then some '\n'
  else if e = 't' then some '\t'
  else if e = 'r' then some '\r'
  else none

/-- Read the body of a JSON string up to its closing quote. -/
def parseStrChars : List Char → Option (List Char × List Char)
  | [] => none
  | c :: cs =>
    if c = '"' then some ([], cs)
    else if c = '\\' then
      match cs with
      | [] => none
      | e :: cs2 =>
        match escChar e with
        | none => none
        | some ec =>
          match parseStrChars cs2 with
          | none => none
          | some (r, rest) => some (ec :: r, rest)
    else
      match parseStrChars cs with
      | none => none
      | some (r, rest) => some (c :: r, rest)

/-- A digit run as a number. -/
def digitsToNat (ds : List Char) : Nat :=
  ds.foldl (fun a c => a * 10 + (c.toNat - 48)) 0

mutual

/-- Parse one JSON value (fueled recursive descent). -/
def parseJVal : Nat → List Char → Option (Json × List Char)
  | 0, _ => none
  | fuel + 1, cs =>
    match skipWs cs with
    | [] => none
    | c :: rest =>
      if c = 'n' then
        match rest with
        | 'u' :: 'l' :: 'l' :: r => some (.jnull, r)
        | _ => none
      else if c = 't' then
        match rest with
        | 'r' :: 'u' :: 'e' :: r => some (.jbool true, r)
        | _ => none
      else if c = 'f' then
        match rest with
        | 'a' :: 'l' :: 's' :: 'e' :: r => some (.jbool false, r)
        | _ => none
      else if c = '"' then
        match parseStrChars rest with
        | some (sc, r) => some (.jstr (String.mk sc), r)
        | none => none
      else if c = '[' then
        match skipWs rest with
        | ']' :: r => some (.jarr [], r)
        | _ => parseJArr fuel rest []
      else if c = '\x7b' then
        match skipWs rest with
        | '\x7d' :: r => some (.jobj [], r)
        | _ => parseJObj fuel rest []
      else if c = '-' ∨ c.isDigit then
        let p := if c = '-' then ((true : Bool), rest) else (false, c :: rest)
        match p.2.span Char.isDigit with
        | ([], _) => none
        | (ds, r) =>
          let n : Int := Int.ofNat (digitsToNat ds)
          some (.jnum (if p.1 then -n else n), r)
      else none

/-- Parse the elements of a JSON array after its opening bracket. -/
def parseJArr : Nat → List Char → List Json → Option (Json × List Char)
  | 0, _, _ => none
  | fuel + 1, cs, acc =>
    match parseJVal fuel cs with
    | none => none
    | some (v, r) =>
      match skipWs r with
      | ',' :: r2 => parseJArr fuel r2 (acc ++ [v])
      | ']' :: r2 => some (.jarr (acc ++ [v]), r2)
      | _ => none

/-- Parse the fields of a JSON object after its opening brace. -/
def parseJObj : Nat → List Char → List (String × Json) → Option (Json × List Char)
  | 0, _, _ => none
  | fuel + 1, cs, acc =>
    match skipWs cs with
    | '"' :: r =>
      match parseStrChars r with
      | none => none
      | some (kc, r2) =>
        match skipWs r2 with
        | ':' :: r3 =>
          match parseJVal fuel r3 with
          | none => none
          | some (v, r4) =>
            match skipWs r4 with
            | ',' :: r5 => parseJObj fuel r5 (acc ++ [(String.mk kc, v)])
            | '\x7d' :: r5 => some (.jobj (acc ++ [(String.mk kc, v)]), r5)
            | _ => none
        | _ => none
    | _ => none

end

/-- Parse a whole byte slice as one JSON value (trailing garbage rejected,
as `json.Unmarshal` does). -/
def jsonParse (b : List Nat) : Option Json :=
  let cs := b.map Char.ofNat
  match parseJVal (cs.length + 1) cs with
  | some (j, rest) => if skipWs rest = [] then some j else none
  | none => none

/-- Run a field-setter over an object's fields in order, stopping at the
first type error — the merge semantics of `json.Unmarshal` into a struct:
unknown keys are ignored (by the setters) and absent keys keep the value
the struct already has. -/
def foldFields {α : Type} (f : α → String × Json → GoResult α) :
    α → List (String × Json) → GoResult α
  | a, [] => .ok a
  | a, kv :: fs =>
    match f a kv with
    | .ok a2 => foldFields f a2 fs
    | .error e => .error e
    | .panicked p => .panicked p

/-! ### Version (`type Version struct`, `Version.Parse` / `Version.Write`) -/

/-- `Version`: the parsed `version` entry plus the sha-256 digest computed
while it was read (`shaSum`). -/
structure Version where
  format : String
  version : Int
  shaSum : List Nat
deriving DecidableEq, Repr

instance : Inhabited Version := ⟨⟨"", 0, []⟩⟩

/-- One field of the JSON object, per `Version`'s struct tags. -/
def versionSetField (v : Version) (kv : String × Json) : GoResult Version :=
  if kv.1 = "format" then
    match kv.2 with
    | .jstr s => .ok { v with format := s }
    | _ => .error (.msg "json: cannot unmarshal value into field format")
  else if kv.1 = "version" then
    match kv.2 with
    | .jnum n => .ok { v with version := n }
    | _ => .error (.msg "json: cannot unmarshal value into field version")
  else .ok v

/-- `json.Unmarshal(b, v)` for `*Version` (the body of `Version.Write`). -/
def versionUnmarshal (v : Version) (b : List Nat) : GoResult Version :=
  match jsonParse b with
  | none => .error (.msg "invalid json")
  | some (.jobj fs) => foldFields versionSetField v fs
  | some _ => .error (.msg "json: cannot unmarshal value into Version")

/-- The `io.Copy(io.MultiWriter(v, sha), r)` loop inside `Version.Parse`:
each chunk read from the tar entry is handed to `Version.Write` (a full
`json.Unmarshal` of that chunk) and then to the sha-256 accumulator, which
is modelled by the list of bytes written to it so far. -/
def versionParseLoop (v : Version) (acc : List Nat) :
    List (List Nat) → GoResult (Version × List Nat)
  | [] => .ok (v, acc)
  | c :: cs =>
    match versionUnmarshal v c with
    | .ok v2 => versionParseLoop v2 (acc ++ c) cs
    | .error e => .error e
    | .panicked p => .panicked p

/-- `Version.Parse`: copy the entry through the digest tee, then store the
digest; a failing copy is wrapped and no digest is stored. -/
def versionParse (chunks : List (List Nat)) : GoResult Version :=
  match versionParseLoop default [] chunks with
  | .ok (v, acc) => .ok { v with shaSum := sha256Bytes acc }
  | .error e => .error (.msg ("Parser: Write: Failed to read version: " ++ e.str))
  | .panicked p => .panicked p

/-! ### Manifest (`type Manifest struct`, `Manifest.Parse` / `Manifest.Read`) -/

/-- One manifest record: `Signature` (the hex checksum column) and `Name`
(the path column), exactly the source's field names. -/
structure ManifestData where
  signature : String
  name : String
deriving DecidableEq, Repr

/-- The manifest: the records in file order. -/
structure Manifest where
  data : List ManifestData
deriving DecidableEq, Repr

/-- One line of `Manifest.Parse`: `tmp := strings.Split(line, " ")` and the
record `{Signature: tmp[0], Name: tmp[2]}`; accessing `tmp[2]` of a split
with fewer than three pieces is a Go index-out-of-range panic. -/
def manifestParseLine (m : Manifest) (line : String) : GoResult Manifest :=
  let tmp := goSplit line ' '
  match tmp.get? 2 with
  | some nm => .ok ⟨m.data ++ [⟨tmp.headD "", nm⟩]⟩
  | none => .panicked "runtime error: index out of range"

/-- The scanner loop of `Manifest.Parse`. -/
def manifestParseLines (m : Manifest) : List String → GoResult Manifest
  | [] => .ok m
  | l :: ls =>
    match manifestParseLine m l with
    | .ok m2 => manifestParseLines m2 ls
    | .error e => .error e
    | .panicked p => .panicked p

/-- `Manifest.Parse` over the entry's text. -/
def manifestParse (content : String) : GoResult Manifest :=
  manifestParseLines ⟨[]⟩ (goLines content)

/-- The bytes `Manifest.Read` assembles in its buffer: one line per record,
`Signature`, a single space, `Name`, newline.  (The Go method then assigns
the buffer to its local slice parameter, so the caller never actually
receives these bytes — a further slip noted where relevant.) -/
def manifestRead (m : Manifest) : String :=
  String.join (m.data.map (fun d => d.signature ++ " " ++ d.name ++ "\n"))

/-! ### ManifestSig and ManifestAugment -/

/-- `ManifestSig`: the raw signature bytes. -/
structure ManifestSig where
  sig : List Nat
deriving DecidableEq, Repr

/-- `ManifestSig.Parse`: `ioutil.ReadAll` — always succeeds. -/
def manifestSigParse (b : List Nat) : GoResult ManifestSig := .ok ⟨b⟩

/-- The augmented manifest records. -/
structure ManifestAugment where
  augData : List ManifestData
deriving DecidableEq, Repr

/-- One line of `ManifestAugment.Parse`: `{Signature: tmp[0], Name: tmp[1]}`;
`tmp[1]` of a one-piece split is an index-out-of-range panic. -/
def manifestAugmentParseLine (m : ManifestAugment) (line : String) :
    GoResult ManifestAugment :=
  let tmp := goSplit line ' '
  match tmp.get? 1 with
  | some nm => .ok ⟨m.augData ++ [⟨tmp.headD "", nm⟩]⟩
  | none => .panicked "runtime error: index out of range"

/-- The scanner loop of `ManifestAugment.Parse`. -/
def manifestAugmentParseLines (m : ManifestAugment) :
    List String → GoResult ManifestAugment
  | [] => .ok m
  | l :: ls =>
    match manifestAugmentParseLine m l with
    | .ok m2 => manifestAugmentParseLines m2 ls
    | .error e => .error e
    | .panicked p => .panicked p

/-- `ManifestAugment.Parse` over the entry's text. -/
def manifestAugmentParse (content : String) : GoResult ManifestAugment :=
  manifestAugmentParseLines ⟨[]⟩ (goLines content)

/-! ### TypeInfo and MetaData -/

structure TypeInfoProvides where
  rootfsImageChecksum : String
deriving DecidableEq, Repr

structure TypeInfoDepends where
  rootfsImageChecksum : String
deriving DecidableEq, Repr

/-- `TypeInfo`: a payload's type plus its provides/depends clauses. -/
structure TypeInfo where
  type : String
  typeInfoProvides : TypeInfoProvides
  typeInfoDepends : TypeInfoDepends
deriving DecidableEq, Repr

instance : Inhabited TypeInfo := ⟨⟨"", ⟨""⟩, ⟨""⟩⟩⟩

/-- Field setter shared by the provides/depends clauses
(`rootfs_image_checksum`). -/
def rootfsSetField (p : String) (kv : String × Json) : GoResult String :=
  if kv.1 = "rootfs_image_checksum" then
    match kv.2 with
    | .jstr s => .ok s
    | _ => .error (.msg "json: cannot unmarshal value into field rootfs_image_checksum")
  else .ok p

/-- One field of the `TypeInfo` JSON object, per its struct tags. -/
def typeInfoSetField (t : TypeInfo) (kv : String × Json) : GoResult TypeInfo :=
  if kv.1 = "type" then
    match kv.2 with
    | .jstr s => .ok { t with type := s }
    | _ => .error (.msg "json: cannot unmarshal value into field type")
  else if kv.1 = "artifact_provides" then
    match kv.2 with
    | .jobj fs =>
      match foldFields rootfsSetField t.typeInfoProvides.rootfsImageChecksum fs with
      | .ok s => .ok { t with typeInfoProvides := ⟨s⟩ }
      | .error e => .error e
      | .panicked p => .panicked p
    | _ => .error (.msg "json: cannot unmarshal value into field artifact_provides")
  else if kv.1 = "artifact_depends" then
    match kv.2 with
    | .jobj fs =>
      match foldFields rootfsSetField t.typeInfoDepends.rootfsImageChecksum fs with
      | .ok s => .ok { t with typeInfoDepends := ⟨s⟩ }
      | .error e => .error e
      | .panicked p => .panicked p
    | _ => .error (.msg "json: cannot unmarshal value into field artifact_depends")
  else .ok t

/-- `json.Unmarshal(b, &t)` for `TypeInfo`, as run by `TypeInfo.Write`.
Like every `json.Unmarshal` into a struct, an object *missing* a field
simply leaves that field at its previous (zero) value. -/
def typeInfoUnmarshal (t : TypeInfo) (b : List Nat) : GoResult TypeInfo :=
  match jsonParse b with
  | none => .error (.msg "invalid json")
  | some (.jobj fs) => foldFields typeInfoSetField t fs
  | some _ => .error (.msg "json: cannot unmarshal value into TypeInfo")

/-- `TypeInfo.Write` — the decode operation for a `type-info` section.  It
has a *value* receiver: the unmarshal fills a copy, so the caller's
`TypeInfo` is unchanged and only the byte count and error status escape. -/
def typeInfoWrite (t : TypeInfo) (b : List Nat) : GoResult Nat :=
  match typeInfoUnmarshal t b with
  | .ok _ => .ok b.length
  | .error e => .error (.msg ("TypeInfo: Write: Failed to unmarshal json: " ++ e.str))
  | .panicked p => .panicked p

/-- `MetaData` is an opaque blob. -/
structure MetaData where
deriving DecidableEq, Repr

instance : Inhabited MetaData := ⟨⟨⟩⟩

/-- `MetaData.Write` copies to `ioutil.Discard` — always succeeds. -/
def metaDataWrite (b : List Nat) : GoResult Nat := .ok b.length

/-! ### HeaderInfo -/

/-- One declared payload of the header-info. -/
structure Payload where
  type : String
deriving DecidableEq, Repr

structure ArtifactProvides where
  artifactName : String
  artifactGroup : String
deriving DecidableEq, Repr

structure ArtifactDepends where
  artifactName : List String
  deviceType : List String
deriving DecidableEq, Repr

/-- `HeaderInfo`: the declared payload list plus provides/depends. -/
structure HeaderInfo where
  payloads : List Payload
  artifactProvides : ArtifactProvides
  artifactDepends : ArtifactDepends
deriving DecidableEq, Repr

instance : Inhabited HeaderInfo := ⟨⟨[], ⟨"", ""⟩, ⟨[], []⟩⟩⟩

def payloadSetField (p : Payload) (kv : String × Json) : GoResult Payload :=
  if kv.1 = "type" then
    match kv.2 with
    | .jstr s => .ok ⟨s⟩
    | _ => .error (.msg "json: cannot unmarshal value into field type")
  else .ok p

/-- Decode a JSON array as the `payloads` list. -/
def payloadsFromJson : List Json → GoResult (List Payload)
  | [] => .ok []
  | j :: js =>
    match j with
    | .jobj fs =>
      match foldFields payloadSetField ⟨""⟩ fs with
      | .ok p =>
        match payloadsFromJson js with
        | .ok ps => .ok (p :: ps)
        | .error e => .error e
        | .panicked q => .panicked q
      | .error e => .error e
      | .panicked q => .panicked q
    | _ => .error (.msg "json: cannot unmarshal value into Payload")

/-- Decode a JSON array as a `[]string`. -/
def stringsFromJson : List Json → GoResult (List String)
  | [] => .ok []
  | .jstr s :: js =>
    match stringsFromJson js with
    | .ok ss => .ok (s :: ss)
    | .error e => .error e
    | .panicked q => .panicked q
  | _ :: _ => .error (.msg "json: cannot unmarshal value into string")

def artifactProvidesSetField (a : ArtifactProvides) (kv : String × Json) :
    GoResult ArtifactProvides :=
  if kv.1 = "artifact_name" then
    match kv.2 with
    | .jstr s => .ok { a with artifactName := s }
    | _ => .error (.msg "json: cannot unmarshal value into field artifact_name")
  else if kv.1 = "artifact_group" then
    match kv.2 with
    | .jstr s => .ok { a with artifactGroup := s }
    | _ => .error (.msg "json: cannot unmarshal value into field artifact_group")
  else .ok a

def artifactDependsSetField (a : ArtifactDepends) (kv : String × Json) :
    GoResult ArtifactDepends :=
  if kv.1 = "artifact_name" then
    match kv.2 with
    | .jarr js =>
      match stringsFromJson js with
      | .ok ss => .ok { a with artifactName := ss }
      | .error e => .error e
      | .panicked q => .panicked q
    | _ => .error (.msg "json: cannot unmarshal value into field artifact_name")
  else if kv.1 = "device_type" then
    match kv.2 with
    | .jarr js =>
      match stringsFromJson js with
      | .ok ss => .ok { a with deviceType := ss }
      | .error e => .error e
      | .panicked q => .panicked q
    | _ => .error (.msg "json: cannot unmarshal value into field device_type")
  else .ok a

/-- One field of the `HeaderInfo` JSON object, per its struct tags. -/
def headerInfoSetField (h : HeaderInfo) (kv : String × Json) : GoResult HeaderInfo :=
  if kv.1 = "payloads" then
    match kv.2 with
    | .jarr js =>
      match payloadsFromJson js with
      | .ok ps => .ok { h with payloads := ps }
      | .error e => .error e
      | .panicked q => .panicked q
    | _ => .error (.msg "json: cannot unmarshal value into field payloads")
  else if kv.1 = "artifact_provides" then
    match kv.2 with
    | .jobj fs =>
      match foldFields artifactProvidesSetField h.artifactProvides fs with
      | .ok a => .ok { h with artifactProvides := a }
      | .error e => .error e
      | .panicked q => .panicked q
    | _ => .error (.msg "json: cannot unmarshal value into field artifact_provides")
  else if kv.1 = "artifact_depends" then
    match kv.2 with
    | .jobj fs =>
      match foldFields artifactDependsSetField h.artifactDepends fs with
      | .ok a => .ok { h with artifactDepends := a }
      | .error e => .error e
      | .panicked q => .panicked q
    | _ => .error (.msg "json: cannot unmarshal value into field artifact_depends")
  else .ok h

/-- `json.Unmarshal(b, &h)` for `HeaderInfo`. -/
def headerInfoUnmarshal (h : HeaderInfo) (b : List Nat) : GoResult HeaderInfo :=
  match jsonParse b with
  | none => .error (.msg "invalid json")
  | some (.jobj fs) => foldFields headerInfoSetField h fs
  | some _ => .error (.msg "json: cannot unmarshal value into HeaderInfo")

/-- `HeaderInfo.Write` — the decode run while parsing `header-info`.  It has
a *value* receiver (`func (h HeaderInfo) Write`): the unmarshal fills a
copy, so the caller's `HeaderInfo` keeps its zero value; only the byte
count and the error status escape. -/
def headerInfoWrite (h : HeaderInfo) (b : List Nat) : GoResult Nat :=
  match headerInfoUnmarshal h b with
  | .ok _ => .ok b.length
  | .error e => .error e
  | .panicked p => .panicked p

/-! ### Scripts -/

/-- `Scripts`: the configured destination directory, the currently open
destination file (`os.Create` is modelled as succeeding, the open handle
identified by its path) and the recorded names. -/
structure Scripts where
  scriptDir : String
  currentScriptName : String
  file : Option String
  names : List String
deriving DecidableEq, Repr

/-- `Scripts.Next(filename)`: create `filepath.Join(scriptDir, filename)`,
make it the active file and record that joined path in `names`. -/
def Scripts.next (s : Scripts) (filename : String) : Scripts :=
  { s with
    file := some (joinPath s.scriptDir filename)
    names := s.names ++ [joinPath s.scriptDir filename] }

/-- `Scripts.Write(b)`: refuse to write when no `Next` call has opened a
destination file; otherwise the copy to the open file succeeds. -/
def Scripts.write (s : Scripts) (b : List Nat) : GoResult Nat :=
  match s.file with
  | none => .error (.msg "Next must be called, prior to writing a script")
  | some _ => .ok b.length

/-! ### The header archive (`HeaderTar.Parse`) -/

/-- An entry of a (decompressed) nested tar archive. -/
structure Entry where
  name : String
  content : List Nat
deriving DecidableEq, Repr

/-- One payload's sub-header. -/
structure SubHeader where
  name : String
  typeInfo : TypeInfo
  metaData : MetaData
deriving DecidableEq, Repr

instance : Inhabited SubHeader := ⟨⟨"", default, default⟩⟩

/-- The scripts loop of `HeaderTar.Parse`: read entries, stopping (without
consuming) at the first entry whose directory is *literally* `headers/0000`
(the numeric-index generalisation is an unresolved TODO in the source);
any other entry must live in `scripts/` and is handed to
`Scripts.Next`/`Scripts.Write`; an exhausted archive surfaces the io.EOF of
`tar.Reader.Next`. -/
def scriptsLoop (s : Scripts) : List Entry → GoResult (Scripts × Entry × List Entry)
  | [] => .error .eof
  | e :: rest =>
    if goDir e.name = "headers/0000" then .ok (s, e, rest)
    else if goDir e.name ≠ "scripts" then
      .error (.msg ("Expected scripts. Got: " ++ e.name))
    else
      let s2 := s.next (goBase e.name)
      match s2.write e.content with
      | .ok _ => scriptsLoop s2 rest
      | .error err => .error err
      | .panicked p => .panicked p

/-- The sub-header loop of `HeaderTar.Parse`, entered with the entry that
ended the scripts loop in hand.  Each round requires a `type-info` entry
(decoded by the value-receiver `TypeInfo.Write`, so the stored `typeInfo`
stays zero), optionally followed by a `meta-data` entry.  io.EOF right
after a `type-info` appends the sub-header and returns; io.EOF right after
a `meta-data` breaks out of the loop *without* appending the sub-header
just read (the source's `break` skips the append). -/
def subHeadersLoop (acc : List SubHeader) (e : Entry) (rest : List Entry) :
    GoResult (List SubHeader) :=
  if goBase e.name ≠ "type-info" then
    .error (.msg ("Expected `type-info`. Got " ++ e.name))
  else
    let sh : SubHeader := default
    match typeInfoWrite sh.typeInfo e.content with
    | .error err => .error (.msg ("HeaderTar: " ++ err.str))
    | .panicked p => .panicked p
    | .ok _ =>
      match rest with
      | [] => .ok (acc ++ [sh])
      | e2 :: rest2 =>
        if goBase e2.name = "meta-data" then
          match metaDataWrite e2.content with
          | .error err => .error (.msg ("HeaderTar: meta-data copy error: " ++ err.str))
          | .panicked p => .panicked p
          | .ok _ =>
            match rest2 with
            | [] => .ok acc
            | e3 :: rest3 => subHeadersLoop (acc ++ [sh]) e3 rest3
        else subHeadersLoop (acc ++ [sh]) e2 rest2
termination_by structural rest

/-- The signed header: header-info, scripts, sub-headers.  (The source also
tees the compressed byte stream through a sha-256 whose digest is only
assigned on one of the loop's exit paths; the gzip byte layer is abstracted
here and no claim mentions that digest, so the field is not modelled.) -/
structure HeaderTar where
  headerInfo : HeaderInfo
  scripts : Scripts
  headers : List SubHeader
deriving DecidableEq, Repr

/-- `HeaderTar.Parse` on the decompressed entry list: `header-info` first
(decoded by the value-receiver `HeaderInfo.Write`, so the stored
`headerInfo` keeps its zero value), then the scripts loop, then the
sub-header loop.  No comparison between the number of sub-headers and the
header-info's declared payloads is performed anywhere. -/
def headerTarParse (h : HeaderTar) (entries : List Entry) : GoResult HeaderTar :=
  match entries with
  | [] => .error .eof
  | e0 :: rest =>
    if e0.name ≠ "header-info" then
      .error (.msg ("Unexpected header: " ++ e0.name))
    else
      match headerInfoWrite h.headerInfo e0.content with
      | .error err => .error err
      | .panicked p => .panicked p
      | .ok _ =>
        match scriptsLoop h.scripts rest with
        | .error err => .error err
        | .panicked p => .panicked p
        | .ok (s2, term, rest2) =>
          match subHeadersLoop [] term rest2 with
          | .error err => .error err
          | .panicked p => .panicked p
          | .ok hs => .ok { h with scripts := s2, headers := hs }

/-- The augmented header. -/
structure HeaderAugment where
  headerInfo : HeaderInfo
  subHeaders : List SubHeader
deriving DecidableEq, Repr

/-- The sub-header loop of `HeaderAugment.Write`: unlike `HeaderTar.Parse`
it treats *every* error from `tar.Reader.Next` — io.EOF included — as a
failure, so finishing the archive always surfaces an error. -/
def augSubHeadersLoop (acc : List SubHeader) (e : Entry) (rest : List Entry) :
    GoResult (List SubHeader) :=
  if goBase e.name ≠ "type-info" then
    .error (.msg ("Expected `type-info`. Got " ++ e.name))
  else
    let sh : SubHeader := default
    match typeInfoWrite sh.typeInfo e.content with
    | .error err => .error err
    | .panicked p => .panicked p
    | .ok _ =>
      match rest with
      | [] => .error .eof
      | e2 :: rest2 =>
        if goBase e2.name = "meta-data" then
          match metaDataWrite e2.content with
          | .error err => .error err
          | .panicked p => .panicked p
          | .ok _ =>
            match rest2 with
            | [] => .error .eof
            | e3 :: rest3 => augSubHeadersLoop (acc ++ [sh]) e3 rest3
        else augSubHeadersLoop (acc ++ [sh]) e2 rest2
termination_by structural rest

/-- `HeaderAugment.Write` on the decompressed entry list.  After decoding
`header-info` the sub-header loop is entered *without* advancing the
cursor (its "hdr.Name is already set" comment is copied from the scripts
loop that does not exist here), so the first round still sees the
`header-info` entry and the method can never succeed. -/
def headerAugmentWrite (h : HeaderAugment) (entries : List Entry) : GoResult Nat :=
  match entries with
  | [] => .error .eof
  | e0 :: rest =>
    if e0.name ≠ "header-info" then
      .error (.msg ("Unexpected header: " ++ e0.name))
    else
      match headerInfoWrite h.headerInfo e0.content with
      | .error _ =>
        -- the source swallows this error (`return 0, nil`); the zero count
        -- makes the enclosing io.Copy report a short write
        .error (.msg "short write")
      | .panicked p => .panicked p
      | .ok _ =>
        match augSubHeadersLoop [] e0 rest with
        | .error err => .error err
        | .panicked p => .panicked p
        | .ok _ => .ok 0

/-! ### The outer archive and the grammar walker (`Parser.Parse`) -/

/-- The content of one outer-archive entry: either plain bytes, or — for
the `*.tar.gz` entries — the nested archive, carried in already-decoded
form (the gzip byte layer is abstracted away, see the header comment). -/
inductive OContent where
  | bytes : List Nat → OContent
  | targz : List Entry → OContent
deriving DecidableEq, Repr

/-- One entry of the outer artifact archive. -/
structure OEntry where
  name : String
  content : OContent
deriving DecidableEq, Repr

/-- `artifact.Version.Parse(tarElement)` on an outer entry: a byte entry is
delivered by io.Copy as one chunk (entries are far below the 32 KiB copy
buffer); feeding a compressed archive where JSON is expected fails the
unmarshal, as the gzip bytes are not JSON. -/
def versionParseEntry : OContent → GoResult Version
  | .bytes b => versionParse [b]
  | .targz _ => .error (.msg ("Parser: Write: Failed to read version: " ++ "invalid json"))

/-- `artifact.Manifest.Parse(tarElement)` on an outer entry.  A compressed
archive where manifest text is expected yields binary "lines" whose first
line lacks two spaces, hence the index-out-of-range panic. -/
def manifestParseEntry : OContent → GoResult Manifest
  | .bytes b => manifestParse (bytesToStr b)
  | .targz _ => .panicked "runtime error: index out of range"

/-- `artifact.ManifestAugment.Parse(tarElement)` on an outer entry. -/
def manifestAugmentParseEntry : OContent → GoResult ManifestAugment
  | .bytes b => manifestAugmentParse (bytesToStr b)
  | .targz _ => .panicked "runtime error: index out of range"

/-- The `Scripts` value `New()` builds: the hard-coded script directory, no
open file, no recorded names. -/
def scriptsInit : Scripts :=
  ⟨"/Users/olepor/go/src/github.com/olepor/ma-go/scripts", "", none, []⟩

/-- The `HeaderTar` value `New()` builds. -/
def headerTarInit : HeaderTar := ⟨default, scriptsInit, []⟩

/-- `artifact.HeaderTar.Parse(tarElement)` on an outer entry: the gzip
reader fails unless the content is a compressed archive (io.EOF on an
empty stream, a header error otherwise). -/
def headerTarParseEntry : OContent → GoResult HeaderTar
  | .targz es => headerTarParse headerTarInit es
  | .bytes [] => .error .eof
  | .bytes (_ :: _) => .error (.msg "gzip: invalid header")

/-- `io.Copy(artifact.HeaderAugment, tarElement)` on an outer entry. -/
def headerAugmentWriteEntry : OContent → GoResult Nat
  | .targz es => headerAugmentWrite ⟨default, []⟩ es
  | .bytes [] => .error .eof
  | .bytes (_ :: _) => .error (.msg "gzip: invalid header")

/-- `Parser.Parse` — the container grammar walker of the source, step by
step over the outer entry list:

1. the first entry must be named `version` (parsed with the digest tee);
2. the second must be named `manifest`;
3. the next entry is peeked: if it is `manifest.sig` the signature is
   consumed, the following entry is checked against `manifest-augment`
   (consumed when it matches), and then the cursor is advanced once more —
   unconditionally, i.e. also when the peeked entry was *not* the augment
   manifest, in which case that entry is skipped;
4. the entry now in hand must be named `header.tar.gz` and its archive is
   parsed;
5. an optional `header-augment.tar.gz` is consumed;
6. the entry in hand must live in the `data/` directory; the walker stops
   there (payloads are left to `Parser.Next`).

The parsed pieces live behind nil pointers or local variables in the
source (`p.artifact` is never assigned), so only the success/failure of
the walk is observable; the result type reflects that. -/
def parserParse (entries : List OEntry) : GoResult Unit :=
  match entries with
  | [] => .error .eof
  | e1 :: r1 =>
  if e1.name ≠ "version" then .error (.msg ("Expected version. Got " ++ e1.name))
  else match versionParseEntry e1.content with
  | .error err => .error (.msg ("Failed to parse the Version header, error: " ++ err.str))
  | .panicked p => .panicked p
  | .ok _ =>
  match r1 with
  | [] => .error .eof
  | e2 :: r2 =>
  if e2.name ≠ "manifest" then .error (.msg ("Expected `manifest`. Got " ++ e2.name))
  else match manifestParseEntry e2.content with
  | .error err => .error (.msg ("Failed to parse the Manifest header. Error: " ++ err.str))
  | .panicked p => .panicked p
  | .ok _ =>
  match r2 with
  | [] => .error .eof
  | e3 :: r3 =>
  let afterSig : GoResult (OEntry × List OEntry) :=
    if e3.name = "manifest.sig" then
      -- ManifestSig.Parse (ioutil.ReadAll) cannot fail
      match r3 with
      | [] => .error .eof
      | e4 :: r4 =>
        let augmentStep : GoResult Unit :=
          if e4.name = "manifest-augment" then
            match manifestAugmentParseEntry e4.content with
            | .ok _ => .ok ()
            | .error err =>
              .error (.msg ("Failed to parse 'manifest-augment'. Error: " ++ err.str))
            | .panicked p => .panicked p
          else .ok ()
        match augmentStep with
        | .error err => .error err
        | .panicked p => .panicked p
        | .ok _ =>
          -- the unconditional advance after the optional augment manifest
          match r4 with
          | [] => .error .eof
          | e5 :: r5 => .ok (e5, r5)
    else .ok (e3, r3)
  match afterSig with
  | .error err => .error err
  | .panicked p => .panicked p
  | .ok (hdr, rem) =>
  if hdr.name ≠ "header.tar.gz" then
    .error (.msg ("Expected `header.tar.gz`. Got " ++ hdr.name))
  else match headerTarParseEntry hdr.content with
  | .error err => .error err
  | .panicked p => .panicked p
  | .ok _ =>
  match rem with
  | [] => .error .eof
  | e6 :: r6 =>
  let afterAug : GoResult OEntry :=
    if e6.name = "header-augment.tar.gz" then
      match headerAugmentWriteEntry e6.content with
      | .error err => .error err
      | .panicked p => .panicked p
      | .ok _ =>
        match r6 with
        | [] => .error .eof
        | e7 :: _ => .ok e7
    else .ok e6
  match afterAug with
  | .error err => .error err
  | .panicked p => .panicked p
  | .ok dataEnt =>
  if goDir dataEnt.name ≠ "data" then
    .error (.msg ("Expected `data`. Got " ++ dataEnt.name))
  else .ok ()

/-! ### The payload iterator (`Parser.Next`) -/

/-- The outer cursor `Parser.Next` reads from: the unread remainder of the
current outer entry (`none` once it is drained — reads then yield io.EOF)
and the outer entries after it.  `Parser.Next` never advances the outer
`tar.Reader`, so `rest` is listed only to make the state faithful. -/
structure ParserCursor where
  cur : Option OContent
  rest : List OEntry
deriving DecidableEq, Repr

/-- `Parser.Next`: open a gzip reader over the outer cursor, open the inner
archive, and hand back the first inner entry's content as the payload
stream.  A drained cursor makes `gzip.NewReader` fail with the raw io.EOF
sentinel, which `Next` returns as-is; every other failure is a message
error (the inner `Next` failure is wrapped with its own text). -/
def parserNext (p : ParserCursor) : GoResult (List Nat) :=
  match p.cur with
  | none => .error .eof
  | some (.bytes []) => .error .eof
  | some (.bytes (_ :: _)) => .error (.msg "gzip: invalid header")
  | some (.targz es) =>
    match es with
    | [] => .error (.msg ("Failed to get the tar info in 'data/0000.tar', Error: " ++ "EOF"))
    | e :: _ => .ok e.content

/-- Run the scripts state through `Scripts.Next` for each base name in
turn (the state transformation the scripts loop applies per script). -/
def scriptsAfter (s : Scripts) : List String → Scripts
  | [] => s
  | n :: ns => scriptsAfter (s.next n) ns

/-! ### Shared concrete inputs -/

/-- The bytes of the `version` entry of the spec's concrete scenario. -/
def vjsonStr : String := "\x7b\"format\":\"mender\",\"version\":3\x7d"

/-- The `Version` value that entry parses to, digest included. -/
def sampleVersion : Version := ⟨"mender", 3, sha256Bytes (asciiBytes vjsonStr)⟩

/-- A `header-info` body declaring two payloads. -/
def hi2bytes : List Nat :=
  asciiBytes "\x7b\"payloads\":[\x7b\"type\":\"rootfs-image\"\x7d,\x7b\"type\":\"rootfs-image\"\x7d]\x7d"

/-- The `HeaderInfo` those bytes decode to. -/
def hi2decoded : HeaderInfo :=
  ⟨[⟨"rootfs-image"⟩, ⟨"rootfs-image"⟩], ⟨"", ""⟩, ⟨[], []⟩⟩

/-- A well-formed `type-info` body. -/
def tiBytes : List Nat := asciiBytes "\x7b\"type\":\"rootfs-image\"\x7d"

/-- A well-formed outer `version` entry. -/
def vEntry : OEntry := ⟨"version", .bytes (asciiBytes vjsonStr)⟩

/-- An outer `manifest` entry with empty (vacuously well-formed) content. -/
def mEntry : OEntry := ⟨"manifest", .bytes []⟩

/-- An outer `manifest.sig` entry. -/
def sigEntry : OEntry := ⟨"manifest.sig", .bytes (asciiBytes "c2lnbmF0dXJl")⟩

/-- An outer `manifest-augment` entry. -/
def augEntry : OEntry := ⟨"manifest-augment", .bytes (asciiBytes "abc data/0000/update.delta")⟩

/-- A well-formed outer `header.tar.gz` entry (one payload, no scripts). -/
def hdrEntry : OEntry :=
  ⟨"header.tar.gz",
   .targz [⟨"header-info", asciiBytes "\x7b\"payloads\":[\x7b\"type\":\"rootfs-image\"\x7d]\x7d"⟩,
           ⟨"headers/0000/type-info", tiBytes⟩]⟩

/-- A well-formed outer `data/0000.tar.gz` entry. -/
def dataEntry : OEntry := ⟨"data/0000.tar.gz", .targz [⟨"update.ext4", asciiBytes "0123456789"⟩]⟩

/-- The sample manifest value used for the round-trip analysis. -/
def sampleManifest : Manifest := ⟨[⟨"abc", "version"⟩]⟩

/-! ### Helper lemmas -/

theorem splitOnChar_of_not_mem {c : Char} {l : List Char} (h : c ∉ l) :
    splitOnChar c l = [l] := by
  induction l with
  | nil => rfl
  | cons x xs ih =>
    have hx : ¬x = c := fun hc => h (hc ▸ List.mem_cons_self x xs)
    have hxs : c ∉ xs := fun hc => h (List.mem_cons_of_mem x hc)
    simp [splitOnChar, hx, ih hxs]

theorem splitOnChar_append {c : Char} {l1 l2 : List Char} (h : c ∉ l1) :
    splitOnChar c (l1 ++ c :: l2) = l1 :: splitOnChar c l2 := by
  induction l1 with
  | nil => simp [splitOnChar]
  | cons x xs ih =>
    have hx : ¬x = c := fun hc => h (hc ▸ List.mem_cons_self x xs)
    have hxs : c ∉ xs := fun hc => h (List.mem_cons_of_mem x hc)
    simp [splitOnChar, hx, ih hxs]

theorem scripts_path_chars (n : String) :
    ("scripts/" ++ n).data = "scripts".data ++ '/' :: n.data := by
  obtain ⟨l⟩ := n
  rfl

theorem goDir_scripts (n : String) (h : '/' ∉ n.data) :
    goDir ("scripts/" ++ n) = "scripts" := by
  unfold goDir
  rw [scripts_path_chars, splitOnChar_append (by decide), splitOnChar_of_not_mem h]
  rfl

theorem goBase_scripts (n : String) (h : '/' ∉ n.data) :
    goBase ("scripts/" ++ n) = n := by
  unfold goBase
  rw [scripts_path_chars, splitOnChar_append (by decide), splitOnChar_of_not_mem h]
  obtain ⟨l⟩ := n
  rfl

theorem scriptsAfter_names (ns : List String) :
    ∀ s : Scripts, (scriptsAfter s ns).names = s.names ++ ns.map (joinPath s.scriptDir) := by
  induction ns with
  | nil => intro s; simp [scriptsAfter]
  | cons n ns ih =>
    intro s
    simp [scriptsAfter, ih, Scripts.next, joinPath]

theorem versionParseLoop_acc (chunks : List (List Nat)) :
    ∀ v acc v2 acc2, versionParseLoop v acc chunks = .ok (v2, acc2) →
      acc2 = acc ++ chunks.flatten := by
  induction chunks with
  | nil =>
    intro v acc v2 acc2 h
    simp [versionParseLoop] at h
    simp [h.2.symm]
  | cons c cs ih =>
    intro v acc v2 acc2 h
    cases hu : versionUnmarshal v c with
    | ok v1 =>
      simp only [versionParseLoop, hu] at h
      rw [ih v1 (acc ++ c) v2 acc2 h]
      simp
    | error e => simp [versionParseLoop, hu] at h
    | panicked p => simp [versionParseLoop, hu] at h

theorem typeInfoSetField_unknown (t : TypeInfo) (kv : String × Json)
    (h1 : kv.1 ≠ "type") (h2 : kv.1 ≠ "artifact_provides")
    (h3 : kv.1 ≠ "artifact_depends") :
    typeInfoSetField t kv = .ok t := by
  simp [typeInfoSetField, h1, h2, h3]

theorem foldFields_typeInfo_unknown (fs : List (String × Json)) :
    ∀ t : TypeInfo,
      (∀ kv ∈ fs, kv.1 ≠ "type" ∧ kv.1 ≠ "artifact_provides" ∧ kv.1 ≠ "artifact_depends") →
      foldFields typeInfoSetField t fs = .ok t := by
  induction fs with
  | nil => intro t _; rfl
  | cons kv fs ih =>
    intro t h
    have hk := h kv (List.mem_cons_self _ _)
    simp only [foldFields, typeInfoSetField_unknown t kv hk.1 hk.2.1 hk.2.2]
    exact ih t (fun kv2 hm => h kv2 (List.mem_cons_of_mem _ hm))

theorem scriptsLoop_run (items : List (String × List Nat)) :
    ∀ s : Scripts, (∀ it ∈ items, '/' ∉ it.1.data) →
    ∀ term : Entry, goDir term.name = "headers/0000" → ∀ rest : List Entry,
    scriptsLoop s ((items.map (fun it => ⟨"scripts/" ++ it.1, it.2⟩)) ++ term :: rest)
      = .ok (scriptsAfter s (items.map Prod.fst), term, rest) := by
  induction items with
  | nil =>
    intro s _ term ht rest
    simp [scriptsLoop, ht, scriptsAfter]
  | cons it its ih =>
    intro s hn term ht rest
    have h1 : '/' ∉ it.1.data := hn it (List.mem_cons_self _ _)
    have hd : goDir ("scripts/" ++ it.1) = "scripts" := goDir_scripts _ h1
    have hb : goBase ("scripts/" ++ it.1) = it.1 := goBase_scripts _ h1
    simp only [List.map_cons, List.cons_append, scriptsLoop, hd, hb]
    rw [if_neg (by decide), if_neg (by decide)]
    simp only [Scripts.next, Scripts.write]
    exact ih (s.next it.1) (fun it2 hm => hn it2 (List.mem_cons_of_mem _ hm)) term ht rest

/-! ### The claims -/

/-- Claim C1 (code bug): the Manifest codec does not round-trip.
`Manifest.Read` emits `<checksum><one space><path>` lines while
`Manifest.Parse` reads the path from field index 2 of a single-space
split (i.e. requires the two-space layout its own doc comment shows):
decoding the encoder's own output panics with an index out of range, and
re-encoding the decode of a well-formed two-space line loses a space. -/
theorem manifest_roundtrip_breaks :
    manifestRead sampleManifest = "abc version\n"
  ∧ manifestParse (manifestRead sampleManifest)
      = .panicked "runtime error: index out of range"
  ∧ manifestParse "abc  version\n" = .ok sampleManifest
  ∧ manifestRead sampleManifest ≠ "abc  version\n" := by
  refine ⟨rfl, rfl, rfl, ?_⟩
  decide

/-- Claim C2 (counterexample): a header archive declaring 2 payloads but
providing 1 sub-header parses *successfully* with 1 sub-header (and the
stored header-info keeps its zero value), instead of failing with a
structural error. -/
theorem headerTar_count_unchecked_cex :
    headerInfoUnmarshal default hi2bytes = .ok hi2decoded
  ∧ hi2decoded.payloads.length = 2
  ∧ headerTarParse headerTarInit
      [⟨"header-info", hi2bytes⟩, ⟨"headers/0000/type-info", tiBytes⟩]
      = .ok { headerTarInit with headers := [default] }
  ∧ ({ headerTarInit with headers := [default] } : HeaderTar).headers.length = 1 := by
  exact ⟨rfl, rfl, rfl, rfl⟩

/-- Claim C2 (amended): `HeaderTar.Parse` performs no payload-count check —
for any initial state and any header-info body that decodes to 2 declared
payloads, an archive providing a single `headers/0000/type-info` sub-header
parses successfully with exactly one `SubHeader`, which differs from the
declared count. -/
theorem headerTar_count_unchecked (h0 : HeaderTar) (hiBytes : List Nat) (hiv : HeaderInfo)
    (hu : headerInfoUnmarshal h0.headerInfo hiBytes = .ok hiv)
    (hn : hiv.payloads.length = 2) :
    headerTarParse h0 [⟨"header-info", hiBytes⟩, ⟨"headers/0000/type-info", tiBytes⟩]
      = .ok { h0 with headers := [default] }
  ∧ ({ h0 with headers := [default] } : HeaderTar).headers.length ≠ hiv.payloads.length := by
  constructor
  · have h1 : scriptsLoop h0.scripts [⟨"headers/0000/type-info", tiBytes⟩]
        = .ok (h0.scripts, ⟨"headers/0000/type-info", tiBytes⟩, ([] : List Entry)) := rfl
    have h2 : subHeadersLoop [] ⟨"headers/0000/type-info", tiBytes⟩ []
        = .ok [default] := rfl
    simp only [headerTarParse, headerInfoWrite, hu, h1, h2]
    simp
  · rw [hn]; simp

/-- Witness for C2's amended theorem at a concrete input. -/
theorem headerTar_count_unchecked_witness :
    headerTarParse headerTarInit
      [⟨"header-info", hi2bytes⟩, ⟨"headers/0000/type-info", tiBytes⟩]
      = .ok { headerTarInit with headers := [default] }
  ∧ ({ headerTarInit with headers := [default] } : HeaderTar).headers.length
      ≠ hi2decoded.payloads.length :=
  headerTar_count_unchecked headerTarInit hi2bytes hi2decoded (by rfl) (by rfl)

/-- Claim C3 (confirmed): an outer archive whose first two entries are
`manifest` then `version` fails immediately with the structural error of
the version step, whatever their contents and whatever follows. -/
theorem parse_swapped_order_fails (c1 c2 : OContent) (rest : List OEntry) :
    parserParse (⟨"manifest", c1⟩ :: ⟨"version", c2⟩ :: rest)
      = .error (.msg "Expected version. Got manifest") := rfl

/-- Claim C4 (code bug): after consuming `manifest.sig` the walker advances
the cursor once more even when the peeked entry was not `manifest-augment`,
skipping the `header.tar.gz` entry: an artifact with a signature but no
augment manifest fails, while the claim's second half (augment without a
preceding signature is a structural error) does hold. -/
theorem sig_without_augment_skips_header :
    parserParse [vEntry, mEntry, sigEntry, hdrEntry, dataEntry]
      = .error (.msg "Expected `header.tar.gz`. Got data/0000.tar.gz")
  ∧ parserParse [vEntry, mEntry, augEntry, hdrEntry, dataEntry]
      = .error (.msg "Expected `header.tar.gz`. Got manifest-augment")
  ∧ parserParse [vEntry, mEntry, sigEntry, augEntry, hdrEntry, dataEntry]
      = .ok () := by
  exact ⟨rfl, rfl, rfl⟩

/-- Claim C5 (confirmed): whenever `Version.Parse` succeeds, the digest it
stored is the sha-256 of exactly the raw bytes of the entry as streamed —
the concatenation of every chunk the tee fed to both the JSON decoder and
the hash, the digest being taken only after the copy completed. -/
theorem version_digest_correct (chunks : List (List Nat)) (v : Version)
    (h : versionParse chunks = .ok v) :
    v.shaSum = sha256Bytes chunks.flatten := by
  unfold versionParse at h
  cases hl : versionParseLoop default [] chunks with
  | ok pr =>
    rw [hl] at h
    cases h
    have := versionParseLoop_acc chunks default [] pr.1 pr.2 (by rw [hl])
    simp at this
    simp [this]
  | error e => rw [hl] at h; exact GoResult.noConfusion h
  | panicked p => rw [hl] at h; exact GoResult.noConfusion h

/-- Witness for C5 at the concrete `version` entry of the spec's scenario. -/
theorem version_digest_correct_witness :
    sampleVersion.shaSum = sha256Bytes ([asciiBytes vjsonStr]).flatten :=
  version_digest_correct [asciiBytes vjsonStr] sampleVersion (by rfl)

/-- Claim C6 (code bug): a manifest line missing the path field does not
produce a parse error — indexing field 2 of the split panics with a Go
runtime index-out-of-range, so the parse neither returns an error value
nor a partial Manifest. -/
theorem manifest_malformed_line_panics :
    manifestParse "abc" = .panicked "runtime error: index out of range"
  ∧ (∀ e : GoError, manifestParse "abc" ≠ .error e)
  ∧ (∀ m : Manifest, manifestParse "abc" ≠ .ok m) := by
  refine ⟨rfl, ?_, ?_⟩ <;> intro x h <;>
    rw [show manifestParse "abc" = .panicked "runtime error: index out of range" from rfl] at h <;>
    exact GoResult.noConfusion h

/-- Claim C7 (counterexample): the scripts loop does not stop at an entry
whose directory is any numeric payload-index pattern — only the literal
`headers/0000` ends it; an archive whose first sub-header directory is
`headers/0001` makes the loop fail instead of terminating. -/
theorem scripts_loop_nonzero_index_cex :
    scriptsLoop scriptsInit [⟨"headers/0001/type-info", tiBytes⟩]
      = .error (.msg "Expected scripts. Got: headers/0001/type-info")
  ∧ (∀ s : Scripts, ∀ e : Entry, ∀ r : List Entry,
      scriptsLoop scriptsInit [⟨"headers/0001/type-info", tiBytes⟩] ≠ .ok (s, e, r)) := by
  refine ⟨rfl, ?_⟩
  intro s e r h
  rw [show scriptsLoop scriptsInit [⟨"headers/0001/type-info", tiBytes⟩]
      = .error (.msg "Expected scripts. Got: headers/0001/type-info") from rfl] at h
  exact GoResult.noConfusion h

/-- Claim C7 (amended): entries are consumed as scripts (recorded by base
file name, joined onto the configured script directory) exactly until the
first entry whose directory is the literal `headers/0000`; that entry is
not consumed but terminates the loop, for every count of scripts including
zero — the terminating directory is `headers/0000` only, not an arbitrary
numeric payload index. -/
theorem scripts_loop_terminates_at_0000 (items : List (String × List Nat)) (s : Scripts)
    (term : Entry) (rest : List Entry)
    (hn : ∀ it ∈ items, '/' ∉ it.1.data)
    (ht : goDir term.name = "headers/0000") :
    scriptsLoop s ((items.map (fun it => ⟨"scripts/" ++ it.1, it.2⟩)) ++ term :: rest)
      = .ok (scriptsAfter s (items.map Prod.fst), term, rest)
  ∧ (scriptsAfter s (items.map Prod.fst)).names
      = s.names ++ (items.map Prod.fst).map (joinPath s.scriptDir) :=
  ⟨scriptsLoop_run items s hn term ht rest, scriptsAfter_names (items.map Prod.fst) s⟩

/-- Witness for C7's amended theorem: two scripts, then the `headers/0000`
terminator followed by a further entry, none of which the loop touches. -/
theorem scripts_loop_terminates_at_0000_witness :
    scriptsLoop scriptsInit
      (([("ArtifactInstall_Enter_00", [104]), ("ArtifactCommit_Leave_01", [105])].map
          (fun it => (⟨"scripts/" ++ it.1, it.2⟩ : Entry)))
        ++ (⟨"headers/0000/type-info", tiBytes⟩ : Entry) :: [⟨"headers/0000/meta-data", []⟩])
      = .ok (scriptsAfter scriptsInit
               ([("ArtifactInstall_Enter_00", [104]), ("ArtifactCommit_Leave_01", [105])].map Prod.fst),
             ⟨"headers/0000/type-info", tiBytes⟩, [⟨"headers/0000/meta-data", []⟩])
  ∧ (scriptsAfter scriptsInit
        ([("ArtifactInstall_Enter_00", [104]), ("ArtifactCommit_Leave_01", [105])].map Prod.fst)).names
      = scriptsInit.names
        ++ ([("ArtifactInstall_Enter_00", [104]), ("ArtifactCommit_Leave_01", [105])].map Prod.fst).map
             (joinPath scriptsInit.scriptDir) :=
  scripts_loop_terminates_at_0000
    [("ArtifactInstall_Enter_00", [104]), ("ArtifactCommit_Leave_01", [105])]
    scriptsInit ⟨"headers/0000/type-info", tiBytes⟩ [⟨"headers/0000/meta-data", []⟩]
    (by decide) (by decide)

/-- Claim C8 (confirmed): `Parser.Next` on a drained outer cursor returns
the raw io.EOF sentinel (`GoError.eof`) — the distinguished normal
end-of-payloads outcome, a value distinct by construction from every
wrapped message error the iterator returns on real failures. -/
theorem next_after_exhausted_eof (p : ParserCursor) (h : p.cur = none) :
    parserNext p = .error .eof := by
  simp [parserNext, h]

/-- Witness for C8 at the concrete drained cursor. -/
theorem next_after_exhausted_eof_witness :
    parserNext ⟨none, []⟩ = .error .eof :=
  next_after_exhausted_eof ⟨none, []⟩ rfl

/-- Claim C9 (counterexample): `TypeInfo`'s decode accepts an object with
no `type` field: `json.Unmarshal` leaves absent fields at their zero value,
so decoding `\x7b\x7d` succeeds (with an empty `type`) rather than
returning an error. -/
theorem typeinfo_missing_type_cex :
    typeInfoWrite default (asciiBytes "\x7b\x7d") = .ok 2
  ∧ typeInfoUnmarshal default (asciiBytes "\x7b\x7d") = .ok default
  ∧ (∀ e : GoError, typeInfoWrite default (asciiBytes "\x7b\x7d") ≠ .error e) := by
  refine ⟨rfl, rfl, ?_⟩
  intro e h
  rw [show typeInfoWrite default (asciiBytes "\x7b\x7d") = .ok 2 from rfl] at h
  exact GoResult.noConfusion h

/-- Claim C9 (amended): `TypeInfo` decode does not reject input missing the
`type` field — for any JSON object none of whose keys are `type`,
`artifact_provides` or `artifact_depends`, the unmarshal succeeds and
leaves the `TypeInfo` (in particular its `type`) unchanged at the zero
value, and `TypeInfo.Write` reports success. -/
theorem typeinfo_missing_type_accepted (t : TypeInfo) (b : List Nat)
    (fs : List (String × Json))
    (hp : jsonParse b = some (.jobj fs))
    (hf : ∀ kv ∈ fs, kv.1 ≠ "type" ∧ kv.1 ≠ "artifact_provides" ∧ kv.1 ≠ "artifact_depends") :
    typeInfoUnmarshal t b = .ok t ∧ typeInfoWrite t b = .ok b.length := by
  have h1 : typeInfoUnmarshal t b = .ok t := by
    simp only [typeInfoUnmarshal, hp]
    exact foldFields_typeInfo_unknown fs t hf
  refine ⟨h1, ?_⟩
  simp only [typeInfoWrite, h1]

/-- Witness for C9's amended theorem: an object with one unrelated key. -/
theorem typeinfo_missing_type_accepted_witness :
    typeInfoUnmarshal default (asciiBytes "\x7b\"x\":1\x7d") = .ok default
  ∧ typeInfoWrite default (asciiBytes "\x7b\"x\":1\x7d")
      = .ok (asciiBytes "\x7b\"x\":1\x7d").length :=
  typeinfo_missing_type_accepted default (asciiBytes "\x7b\"x\":1\x7d")
    [("x", .jnum 1)] (by rfl) (by decide)

/-- Claim C10 (confirmed): writing script bytes through the `Scripts` sink
while no destination file is open (no prior `Next` call) returns an error
instead of discarding or misdirecting the bytes. -/
theorem scripts_write_requires_next (s : Scripts) (b : List Nat) (h : s.file = none) :
    Scripts.write s b = .error (.msg "Next must be called, prior to writing a script") := by
  simp [Scripts.write, h]

/-- Witness for C10 at the freshly constructed `Scripts` state. -/
theorem scripts_write_requires_next_witness :
    Scripts.write scriptsInit [104, 105]
      = .error (.msg "Next must be called, prior to writing a script") :=
  scripts_write_requires_next scriptsInit [104, 105] rfl

end Mender
